import Mathlib

/-!
Verification development for the pager / page-cache core of the sqlite
repository (files src/sqlite/src/b-pager/pager-imp.c,
src/sqlite/src/b-os/memory/mem0.c, and the structure headers in
src/unnamed).  The C functions pagerStress and pager_write_pagelist are
embedded as executable Lean functions over an explicit pager state; VFS
calls are represented by an oracle of result codes, and every write the
pager issues to the database file is recorded as an event so that
properties of the write trace can be stated.  Collaborator routines whose
bodies are not part of this repository (syncJournal, pager_error,
sqlite3PcacheMakeClean, pager_write_changecounter, the pcache dirty-list
maintenance) are modelled from the specification and carry doc comments
saying so.
-/

/-! ## Result codes and flag constants (sqlite values) -/

def SQLITE_OK : Nat := 0
def SQLITE_BUSY : Nat := 5
def SQLITE_IOERR : Nat := 10
def SQLITE_FULL : Nat := 13

/-- PGHDR flag bits carried in PgHdr.flags (u16 bitmask in the source). -/
def PGHDR_DIRTY : Nat := 2
def PGHDR_WRITEABLE : Nat := 4
def PGHDR_NEED_SYNC : Nat := 8
def PGHDR_DONT_WRITE : Nat := 16

/-- Bits of Pager.doNotSpill, from src/unnamed/part_002 lines 437-439. -/
def SPILLFLAG_OFF : Nat := 1
def SPILLFLAG_ROLLBACK : Nat := 2
def SPILLFLAG_NOSYNC : Nat := 4

/-- Pager states, from src/unnamed/part_002 lines 328-334. -/
def PAGER_OPEN : Nat := 0
def PAGER_READER : Nat := 1
def PAGER_WRITER_LOCKED : Nat := 2
def PAGER_WRITER_CACHEMOD : Nat := 3
def PAGER_WRITER_DBMOD : Nat := 4
def PAGER_WRITER_FINISHED : Nat := 5
def PAGER_ERROR : Nat := 6

/-! ## Big-endian 4-byte accessors (file-header fields; spec section 6:
all multibyte integers are big-endian) -/

/-- Read the big-endian 32-bit value stored at byte offset `off` of a byte
list (missing bytes read as 0, as for a short file). -/
def get4 (off : Nat) (d : List Nat) : Nat :=
  d.getD off 0 * 2 ^ 24 + d.getD (off + 1) 0 * 2 ^ 16 +
    d.getD (off + 2) 0 * 2 ^ 8 + d.getD (off + 3) 0

/-- Store `v` as a big-endian 32-bit value at byte offset `off`. -/
def put4 (off v : Nat) (d : List Nat) : List Nat :=
  (((d.set off (v / 2 ^ 24 % 256)).set (off + 1) (v / 2 ^ 16 % 256)).set
      (off + 2) (v / 2 ^ 8 % 256)).set (off + 3) (v % 256)

/-! ## Data model: cache entries, the pager, the I/O oracle -/

/-- A cached page (struct PgHdr, src/unnamed/part_001): its page number,
its flag bitmask and its content bytes.  The transient pDirty linkage is
represented by passing Lean lists of pages to pager_write_pagelist. -/
structure PgHdr where
  pgno : Nat
  flags : Nat
  pData : List Nat
deriving Repr, DecidableEq

/-- The pager state (struct Pager, src/unnamed/part_002), restricted to the
members that pagerStress and pager_write_pagelist read or write.  The
pages cached besides the spill victim are carried in `cache` so that the
effect of a journal sync on their flags is observable. -/
structure Pager where
  errCode : Nat
  doNotSpill : Nat
  eState : Nat
  useWal : Bool
  dbSize : Nat
  dbFileSize : Nat
  dbHintSize : Nat
  pageSize : Nat
  statSpill : Nat
  statWrite : Nat
  dbFileVers : List Nat
  cache : List PgHdr
deriving Repr, DecidableEq

/-- Result codes the VFS and journal layer return to the pager: one code
per fallible collaborator call (fault-injection oracle). -/
structure IOEnv where
  syncRc : Nat
  subjRc : Nat
  walRc : Nat
  writeRc : Nat → Nat

/-- One write issued to the database file through sqlite3OsWrite: the page
number, the byte offset and length of the write, the flags the page had
when it was written (mirroring the assertion at pager-imp.c line 181) and
the bytes written. -/
structure WriteEvent where
  pgno : Nat
  offset : Nat
  len : Nat
  flags : Nat
  data : List Nat
deriving Repr, DecidableEq

/-! ## Collaborator routines modelled from the spec -/

/-- Clear the PGHDR_NEED_SYNC bit (bit 3) of a page's u16 flag word. -/
def clearNeedSync (pg : PgHdr) : PgHdr :=
  { pg with flags := pg.flags &&& 0xFFF7 }

/-- Modelled from the spec: sqlite3PcacheMakeClean is not part of this
repository; spec section 4.4 says makeClean clears DIRTY and NEED_SYNC and
removes the entry from the dirty list.  On the single victim this clears
the two bits of the u16 flag word. -/
def sqlite3PcacheMakeClean (pg : PgHdr) : PgHdr :=
  { pg with flags := pg.flags &&& 0xFFF5 }

/-- Modelled from the spec: pager_error is not part of this repository;
spec section 7 and the ERROR-state notes in src/unnamed/part_002 say that
an I/O or disk-full error latches the code in Pager.errCode and moves the
pager to the ERROR state, and that the code is returned unchanged. -/
def pager_error (p : Pager) (rc : Nat) : Nat × Pager :=
  let rc2 := rc % 256
  if rc2 = SQLITE_FULL ∨ rc2 = SQLITE_IOERR then
    (rc, { p with errCode := rc, eState := PAGER_ERROR })
  else
    (rc, p)

/-- Modelled from the spec: syncJournal is not part of this repository;
the state table in src/unnamed/part_002 gives WRITER_CACHEMOD to
WRITER_DBMOD as its transition, and the spec's glossary defines NEED_SYNC
as marking exactly the entries whose journal record is not yet synced, so
a successful sync clears NEED_SYNC on every cached page (and on the spill
victim, which is handed over separately).  On failure it returns the sync
error and changes nothing. -/
def syncJournal (p : Pager) (env : IOEnv) (pg : PgHdr) : Nat × Pager × PgHdr :=
  if env.syncRc = SQLITE_OK then
    (SQLITE_OK,
      { p with
        cache := p.cache.map clearNeedSync
        eState := if p.eState = PAGER_WRITER_CACHEMOD then PAGER_WRITER_DBMOD else p.eState },
      clearNeedSync pg)
  else
    (env.syncRc, p, pg)

/-- The library version number written into the header by the change
counter update (value for release 3.25.0, src/unnamed/part_000 line 1). -/
def SQLITE_VERSION_NUMBER : Nat := 3025000

/-- Modelled from the spec: pager_write_changecounter is called at
pager-imp.c line 182 but its body is not part of this repository; spec
section 4.5 says bytes 24-27 of page 1 form a monotonically advancing
counter updated for a transaction that modifies the file, with the
version-valid-for field (header offset 92) and the library version
(offset 96) refreshed alongside.  The counter is a big-endian 32-bit
value and advances by one. -/
def pager_write_changecounter (pg : PgHdr) : PgHdr :=
  let cc := (get4 24 pg.pData + 1) % 2 ^ 32
  { pg with pData := put4 96 SQLITE_VERSION_NUMBER (put4 92 cc (put4 24 cc pg.pData)) }

/-! ## pager_write_pagelist (pager-imp.c lines 137-217) -/

/-- The skip test of the write loop (pager-imp.c line 177): a page is
written only when its page number is within Pager.dbSize and its
PGHDR_DONT_WRITE flag is clear. -/
def eligible (p : Pager) (pg : PgHdr) : Bool :=
  pg.pgno ≤ p.dbSize ∧ pg.flags &&& PGHDR_DONT_WRITE = 0

/-- The size-hint step before the loop (pager-imp.c lines 159-166): it
only raises dbHintSize, issuing a file-control hint and no write. -/
def pager_write_hint (p : Pager) (l : List PgHdr) : Pager :=
  match l with
  | [] => p
  | pg :: rest =>
    if p.dbHintSize < p.dbSize ∧ (rest ≠ [] ∨ pg.pgno > p.dbHintSize) then
      { p with dbHintSize := p.dbSize }
    else p

/-- The state updates of one iteration of the write loop that passed the
skip test (pager-imp.c lines 190-200): dbFileVers is refreshed from bytes
24-39 of the encoded page for page 1, dbFileSize grows when the write
extended the file, and the write statistic is bumped. -/
def writeStep (p : Pager) (pg : PgHdr) : Pager :=
  let pg1 := if pg.pgno = 1 then pager_write_changecounter pg else pg
  let p1 := if pg.pgno = 1 then { p with dbFileVers := (pg1.pData.drop 24).take 16 } else p
  let p2 := if pg.pgno > p1.dbFileSize then { p1 with dbFileSize := pg.pgno } else p1
  { p2 with statWrite := p2.statWrite + 1 }

/-- The write issued for one page that passed the skip test (pager-imp.c
lines 178-188): offset (pgno-1)*pageSize, length pageSize, page 1 having
its change counter rewritten before being handed to sqlite3OsWrite. -/
def writeEv (p : Pager) (pg : PgHdr) : WriteEvent :=
  let pg1 := if pg.pgno = 1 then pager_write_changecounter pg else pg
  ⟨pg.pgno, (pg.pgno - 1) * p.pageSize, p.pageSize, pg1.flags, pg1.pData⟩

/-- The while loop of pager_write_pagelist (pager-imp.c lines 168-214).
For each page of the list: if the skip test passes, the page is written
through sqlite3OsWrite (an event is recorded even when the OS call fails,
since the write was issued) and the state updates of writeStep happen; a
failing OS write stops the loop after these updates.  A page failing the
skip test produces no write and the loop continues. -/
def pager_write_loop (env : IOEnv) : Pager → List PgHdr → Nat × Pager × List WriteEvent
  | p, [] => (SQLITE_OK, p, [])
  | p, pg :: rest =>
    if eligible p pg then
      if env.writeRc pg.pgno = SQLITE_OK then
        let r := pager_write_loop env (writeStep p pg) rest
        (r.1, r.2.1, writeEv p pg :: r.2.2)
      else
        (env.writeRc pg.pgno, writeStep p pg, [writeEv p pg])
    else
      pager_write_loop env p rest

/-- pager_write_pagelist (pager-imp.c lines 137-217): the size hint
followed by the write loop.  The temp-file open branch is not modelled
(the database file descriptor is open whenever the list is nonempty, as
the assertion at line 144 requires). -/
def pager_write_pagelist (p : Pager) (env : IOEnv) (l : List PgHdr) :
    Nat × Pager × List WriteEvent :=
  pager_write_loop env (pager_write_hint p l) l

/-! ## pagerStress (pager-imp.c lines 30-102) -/

/-- Everything observable about one pagerStress call: the returned code,
the pager and victim afterwards, the database-file writes issued, the page
numbers appended to the WAL, whether the journal was synced, and whether
sqlite3PcacheMakeClean ran on the victim. -/
structure StressResult where
  rc : Nat
  pager : Pager
  pg : PgHdr
  writes : List WriteEvent
  walFrames : List Nat
  syncedJournal : Bool
  madeClean : Bool
deriving Repr

/-- The tail of pagerStress (pager-imp.c lines 95-101): on SQLITE_OK the
victim is made clean, and the code is filtered through pager_error. -/
def stressFinish (p : Pager) (pg : PgHdr) (evs : List WriteEvent) (frames : List Nat)
    (synced : Bool) (rc : Nat) : StressResult :=
  let cleaned := rc = SQLITE_OK
  let pg1 := if cleaned then sqlite3PcacheMakeClean pg else pg
  let r := pager_error p rc
  { rc := r.1, pager := r.2, pg := pg1, writes := evs, walFrames := frames
    syncedJournal := synced, madeClean := cleaned }

/-- pagerStress (pager-imp.c lines 30-102).  After the error-state guard
(NEVER(pPager->errCode), line 53) and the doNotSpill refusal test (lines
57-62), the spill statistic is bumped and the victim's pDirty link is
cut, so the victim alone is handed on: in WAL mode as a single frame
(after sub-journalling), in rollback mode through a journal sync when the
page needs one or the pager is still in WRITER_CACHEMOD, followed by
pager_write_pagelist on the one-page list. -/
def pagerStress (p : Pager) (env : IOEnv) (pg : PgHdr) : StressResult :=
  if p.errCode ≠ 0 then
    { rc := SQLITE_OK, pager := p, pg := pg, writes := [], walFrames := []
      syncedJournal := false, madeClean := false }
  else if p.doNotSpill ≠ 0 ∧
      (p.doNotSpill &&& (SPILLFLAG_ROLLBACK ||| SPILLFLAG_OFF) ≠ 0 ∨
        pg.flags &&& PGHDR_NEED_SYNC ≠ 0) then
    { rc := SQLITE_OK, pager := p, pg := pg, writes := [], walFrames := []
      syncedJournal := false, madeClean := false }
  else
    let p1 := { p with statSpill := p.statSpill + 1 }
    if p1.useWal then
      let rc := if env.subjRc = SQLITE_OK then env.walRc else env.subjRc
      let frames := if env.subjRc = SQLITE_OK ∧ env.walRc = SQLITE_OK then [pg.pgno] else []
      stressFinish p1 pg [] frames false rc
    else
      if pg.flags &&& PGHDR_NEED_SYNC ≠ 0 ∨ p1.eState = PAGER_WRITER_CACHEMOD then
        let s := syncJournal p1 env pg
        if s.1 = SQLITE_OK then
          let w := pager_write_pagelist s.2.1 env [s.2.2]
          stressFinish w.2.1 s.2.2 w.2.2 [] true w.1
        else
          stressFinish s.2.1 s.2.2 [] [] false s.1
      else
        let w := pager_write_pagelist p1 env [pg]
        stressFinish w.2.1 pg w.2.2 [] false w.1

/-! ## memsys5 roundup (src/sqlite/src/b-os/memory/mem0.c lines 64-120) -/

/-- The population loop of memsys5Init (mem0.c lines 114-120): starting
from mem5.szAtom, block sizes are doubled and stored while they stay
strictly below 0x40000000.  Fuel 32 covers every positive szAtom (at most
30 doublings fit below 2 to the 30th). -/
def populateBlocks : Nat → Nat → List Nat
  | 0, _ => []
  | fuel + 1, size =>
    if size < 0x40000000 then size :: populateBlocks fuel (2 * size) else []

/-- The static table of mem0.c line 86 after memsys5Init ran: the stored
block sizes followed by the zero initialisation of the remaining slots of
the 32-entry C array. -/
def blockSizeTable (szAtom : Nat) : List Nat :=
  let filled := populateBlocks 32 szAtom
  filled ++ List.replicate (32 - filled.length) 0

/-- The table-based memsys5Roundup (mem0.c lines 67-72).  The C loop
while (BlockSize[i++] < n) scans the 32-entry array; when every entry is
below n it reads past the end of the array, which is undefined behaviour,
rendered here as none. -/
def memsys5Roundup (table : List Nat) (n : Nat) : Option Nat :=
  if n > 0x40000000 then some 0 else scan table
where
  scan : List Nat → Option Nat
    | [] => none
    | b :: rest => if b < n then scan rest else some b

/-- The doubling loop of the original memsys5Roundup (mem0.c lines
73-78): for iFullSz = szAtom; iFullSz < n; iFullSz *= 2.  Fuel-bounded;
fuel 64 is ample for every n at most 0x40000000 and positive szAtom. -/
def roundupLoop (n : Nat) : Nat → Nat → Nat
  | 0, i => i
  | fuel + 1, i => if i < n then roundupLoop n fuel (2 * i) else i

/-- The original loop-based memsys5Roundup (mem0.c lines 73-78) that the
table-based version replaces. -/
def memsys5RoundupOrig (szAtom n : Nat) : Nat :=
  if n > 0x40000000 then 0 else roundupLoop n 64 szAtom

/-! ## Pager.dbSize in READER state (src/unnamed/part_002 lines 535-548) -/

/-- The page count Pager.dbSize holds in READER state, from the dbSize
notes in src/unnamed/part_002: it is derived from the byte size of the
database file, rounding a partial trailing page down, except that any
nonempty file counts as at least one page. -/
def dbSizeOfFile (pageSize fileSize : Nat) : Nat :=
  if fileSize = 0 then 0 else max 1 (fileSize / pageSize)

/-- The in-header database size: the big-endian 4-byte field at offset 28
of page 1 (spec section 6 header table). -/
def inHeaderPageCount (file : List Nat) : Nat :=
  get4 28 file

/-! ## The pSynced bookmark of the page-cache manager
(struct PCache, src/unnamed/part_001 lines 21-50)

The dirty list is kept newest first: the head is PCache.pDirty and the
last element is PCache.pDirtyTail, so an entry is strictly older than
another when it comes later in the list.  The maintenance code of the
bookmark is not part of this repository, so the operations below are
modelled from the spec (section 4.4): makeDirty inserts at the MRU head
and is idempotent; makeClean removes the entry and, when the bookmark
pointed at it, moves the bookmark to the next newer entry; journalling a
page sets its NEED_SYNC flag; syncing the journal clears every NEED_SYNC
flag and rests the bookmark on the oldest entry. -/

/-- A dirty-list entry reduced to what the pSynced invariant mentions:
its page number and its NEED_SYNC flag. -/
structure CEntry where
  pgno : Nat
  needSync : Bool
deriving Repr, DecidableEq

/-- The page-cache manager state the bookmark invariant speaks about: the
dirty list (newest first) and the page number the pSynced bookmark rests
on, none when pSynced is null. -/
structure PCacheM where
  dirty : List CEntry
  pSynced : Option Nat
deriving Repr, DecidableEq

/-- Membership of a page number in the dirty list. -/
def hasPg (l : List CEntry) (k : Nat) : Bool :=
  l.any (fun e => e.pgno = k)

/-- Modelled from the spec (section 4.4): makeDirty inserts the entry at
the MRU head of the dirty list, doing nothing when the page is already
dirty; a null bookmark is set to the new entry when that entry does not
need a sync. -/
def pcMakeDirty (c : PCacheM) (e : CEntry) : PCacheM :=
  if hasPg c.dirty e.pgno then c
  else
    { dirty := e :: c.dirty
      pSynced :=
        match c.pSynced with
        | some s => some s
        | none => if e.needSync then none else some e.pgno }

/-- The search predicate for an entry's position: true while the entry is
not the page looked for. -/
def pgNe (k : Nat) (e : CEntry) : Bool :=
  e.pgno ≠ k

/-- Modelled from the spec (section 4.4): makeClean removes the entry
from the dirty list and, when the pSynced bookmark pointed at this entry,
moves the bookmark to the entry's next newer neighbour (pDirtyPrev),
which is null for the head. -/
def pcMakeClean (c : PCacheM) (k : Nat) : PCacheM :=
  match c.dirty.dropWhile (pgNe k) with
  | [] => c
  | _ :: post =>
    { dirty := c.dirty.takeWhile (pgNe k) ++ post
      pSynced :=
        if c.pSynced = some k then ((c.dirty.takeWhile (pgNe k)).getLast?).map CEntry.pgno
        else c.pSynced }

/-- Mark the entry as needing a sync when it is the journalled page. -/
def setSyncIf (k : Nat) (e : CEntry) : CEntry :=
  if e.pgno = k then { e with needSync := true } else e

/-- Drop the NEED_SYNC mark of an entry. -/
def clearSyncEntry (e : CEntry) : CEntry :=
  { e with needSync := false }

/-- Modelled from the spec (section 4.5): journalling a page marks it as
needing a journal sync before it may reach the database file. -/
def pcSetNeedSync (c : PCacheM) (k : Nat) : PCacheM :=
  { c with dirty := c.dirty.map (setSyncIf k) }

/-- Modelled from the spec (glossary NEED_SYNC and section 4.4): once the
journal is synced no entry's record is unsynced, so every NEED_SYNC flag
is cleared and the bookmark rests on the oldest dirty entry. -/
def pcClearSyncFlags (c : PCacheM) : PCacheM :=
  { dirty := c.dirty.map clearSyncEntry
    pSynced := ((c.dirty.map clearSyncEntry).getLast?).map CEntry.pgno }

/-- The page-cache manager states reachable from a fresh cache (empty
dirty list, null bookmark) through the four maintenance operations. -/
inductive PcReach : PCacheM → Prop
  | init : PcReach ⟨[], none⟩
  | dirty (c : PCacheM) (e : CEntry) : PcReach c → PcReach (pcMakeDirty c e)
  | clean (c : PCacheM) (k : Nat) : PcReach c → PcReach (pcMakeClean c k)
  | setSync (c : PCacheM) (k : Nat) : PcReach c → PcReach (pcSetNeedSync c k)
  | clearSync (c : PCacheM) : PcReach c → PcReach (pcClearSyncFlags c)

/-- The bookmark invariant: page numbers in the dirty list are distinct,
and either the bookmark is null with every entry needing a sync, or it
rests on an entry of the list (given by its first-occurrence split) such
that every strictly older entry has NEED_SYNC set. -/
def PcInv (c : PCacheM) : Prop :=
  (c.dirty.map CEntry.pgno).Nodup ∧
    match c.pSynced with
    | none => ∀ x ∈ c.dirty, x.needSync = true
    | some s =>
      ∃ pre e post, c.dirty = pre ++ e :: post ∧ (∀ x ∈ pre, x.pgno ≠ s) ∧
        e.pgno = s ∧ ∀ x ∈ post, x.needSync = true


/-! ## Derived shapes and concrete states used by witnesses -/

/-- The write event for a page as a function of the page size alone (the
loop never changes the page size, so every event of a run has this
shape). -/
def evOf (pageSize : Nat) (pg : PgHdr) : WriteEvent :=
  let pg1 := if pg.pgno = 1 then pager_write_changecounter pg else pg
  ⟨pg.pgno, (pg.pgno - 1) * pageSize, pageSize, pg1.flags, pg1.pData⟩

/-- A concrete I/O oracle where every call succeeds. -/
def envOK : IOEnv :=
  { syncRc := SQLITE_OK, subjRc := SQLITE_OK, walRc := SQLITE_OK, writeRc := fun _ => SQLITE_OK }

/-- A concrete rollback-mode pager in WRITER_DBMOD holding one other
cached page (page 5, dirty and needing a sync). -/
def pagerW : Pager :=
  { errCode := 0, doNotSpill := 0, eState := PAGER_WRITER_DBMOD, useWal := false
    dbSize := 10, dbFileSize := 10, dbHintSize := 10, pageSize := 512
    statSpill := 0, statWrite := 0, dbFileVers := []
    cache := [⟨5, PGHDR_DIRTY + PGHDR_NEED_SYNC, [7]⟩] }

/-- A concrete spill victim: page 2, dirty and needing a journal sync. -/
def pgW : PgHdr :=
  ⟨2, PGHDR_DIRTY + PGHDR_NEED_SYNC, [9, 9, 9]⟩

/-- A concrete page-1 image of 100 zero bytes, dirty. -/
def pg1W : PgHdr :=
  ⟨1, PGHDR_DIRTY, List.replicate 100 0⟩

/-- A concrete page carrying the PGHDR_DONT_WRITE flag, which the write
loop must skip. -/
def pgSkipW : PgHdr :=
  ⟨3, PGHDR_DIRTY + PGHDR_DONT_WRITE, [1]⟩

/-- A concrete 1024-byte database file of zero bytes: shorter than one
2048-byte page, in-header size field (offset 28) zero. -/
def smallFileW : List Nat :=
  List.replicate 1024 0

/-- The concrete pager pagerW with the ROLLBACK spill-control bit set, so
that a stress call must be refused. -/
def pagerRollbackW : Pager :=
  { pagerW with doNotSpill := SPILLFLAG_ROLLBACK }

/-! ## Preservation lemmas for the write loop -/

/-- writeStep only touches dbFileVers, dbFileSize and the write
statistic. -/
theorem writeStep_proj (p : Pager) (pg : PgHdr) :
    (writeStep p pg).pageSize = p.pageSize ∧ (writeStep p pg).dbSize = p.dbSize ∧
      (writeStep p pg).statSpill = p.statSpill ∧ (writeStep p pg).cache = p.cache ∧
      (writeStep p pg).eState = p.eState ∧ (writeStep p pg).errCode = p.errCode := by
  simp only [writeStep]
  split_ifs <;> exact ⟨rfl, rfl, rfl, rfl, rfl, rfl⟩

/-- The write loop only touches dbFileVers, dbFileSize and the write
statistic of the pager. -/
theorem pager_write_loop_proj (env : IOEnv) :
    ∀ (l : List PgHdr) (p : Pager),
      (pager_write_loop env p l).2.1.pageSize = p.pageSize ∧
        (pager_write_loop env p l).2.1.dbSize = p.dbSize ∧
        (pager_write_loop env p l).2.1.statSpill = p.statSpill ∧
        (pager_write_loop env p l).2.1.cache = p.cache ∧
        (pager_write_loop env p l).2.1.eState = p.eState ∧
        (pager_write_loop env p l).2.1.errCode = p.errCode := by
  intro l
  induction l with
  | nil => intro p; exact ⟨rfl, rfl, rfl, rfl, rfl, rfl⟩
  | cons pg rest ih =>
    intro p
    rw [pager_write_loop]
    split_ifs with h1 h2
    · have hs := writeStep_proj p pg
      have hr := ih (writeStep p pg)
      exact ⟨hr.1.trans hs.1, hr.2.1.trans hs.2.1, hr.2.2.1.trans hs.2.2.1,
        hr.2.2.2.1.trans hs.2.2.2.1, hr.2.2.2.2.1.trans hs.2.2.2.2.1,
        hr.2.2.2.2.2.trans hs.2.2.2.2.2⟩
    · exact writeStep_proj p pg
    · exact ih p

/-- The size-hint step only touches dbHintSize. -/
theorem pager_write_hint_proj (p : Pager) (l : List PgHdr) :
    (pager_write_hint p l).pageSize = p.pageSize ∧ (pager_write_hint p l).dbSize = p.dbSize ∧
      (pager_write_hint p l).statSpill = p.statSpill ∧ (pager_write_hint p l).cache = p.cache ∧
      (pager_write_hint p l).eState = p.eState ∧ (pager_write_hint p l).errCode = p.errCode := by
  cases l with
  | nil => exact ⟨rfl, rfl, rfl, rfl, rfl, rfl⟩
  | cons pg rest =>
    simp only [pager_write_hint]
    split_ifs <;> exact ⟨rfl, rfl, rfl, rfl, rfl, rfl⟩

/-- Clearing bits through the 0xFFF7 mask clears bit 3, the NEED_SYNC
bit, whatever the other flag bits are. -/
theorem land_FFF7_bit8 (a : Nat) : (a &&& 0xFFF7) &&& 8 = 0 := by
  rw [Nat.land_assoc]
  have h : (0xFFF7 &&& 8 : Nat) = 0 := by decide
  rw [h]
  simp

/-- The change-counter rewrite leaves the flag word of the page alone. -/
theorem pager_write_changecounter_flags (pg : PgHdr) :
    (pager_write_changecounter pg).flags = pg.flags := rfl

/-- The change-counter rewrite leaves the page number alone. -/
theorem pager_write_changecounter_pgno (pg : PgHdr) :
    (pager_write_changecounter pg).pgno = pg.pgno := rfl

/-- Every event of the write loop is written at offset (pgno-1)*pageSize
with length pageSize. -/
theorem pager_write_loop_aligned (env : IOEnv) :
    ∀ (l : List PgHdr) (p : Pager) (ev : WriteEvent),
      ev ∈ (pager_write_loop env p l).2.2 →
        ev.offset = (ev.pgno - 1) * p.pageSize ∧ ev.len = p.pageSize := by
  intro l
  induction l with
  | nil => intro p ev h; simp [pager_write_loop] at h
  | cons pg rest ih =>
    intro p ev h
    rw [pager_write_loop] at h
    split_ifs at h
    · simp only [List.mem_cons] at h
      rcases h with h | h
      · subst h; exact ⟨rfl, rfl⟩
      · have hres := ih (writeStep p pg) ev h
        rw [(writeStep_proj p pg).1] at hres
        exact hres
    · simp only [List.mem_singleton] at h
      subst h; exact ⟨rfl, rfl⟩
    · exact ih p ev h

/-- The skip test only reads dbSize, so pagers agreeing on dbSize agree
on it. -/
theorem eligible_congr {p q : Pager} (h : p.dbSize = q.dbSize) (pg : PgHdr) :
    eligible p pg = eligible q pg := by
  unfold eligible
  rw [h]

/-- When every OS write succeeds, the loop returns SQLITE_OK and its
write trace is exactly the eligible pages of the list, in order, as
events. -/
theorem pager_write_loop_ok (env : IOEnv) (hok : ∀ n, env.writeRc n = SQLITE_OK) :
    ∀ (l : List PgHdr) (p : Pager),
      (pager_write_loop env p l).1 = SQLITE_OK ∧
        (pager_write_loop env p l).2.2 = (l.filter (eligible p)).map (evOf p.pageSize) := by
  intro l
  induction l with
  | nil => intro p; exact ⟨rfl, rfl⟩
  | cons pg rest ih =>
    intro p
    rw [pager_write_loop]
    split_ifs with h1 h2
    · have hr := ih (writeStep p pg)
      refine ⟨hr.1, ?_⟩
      have hfc : rest.filter (eligible (writeStep p pg)) = rest.filter (eligible p) :=
        List.filter_congr (fun x _ => eligible_congr (writeStep_proj p pg).2.1 x)
      have htail := hr.2
      rw [hfc, (writeStep_proj p pg).1] at htail
      show writeEv p pg :: _ = _
      rw [List.filter_cons_of_pos h1, List.map_cons, htail]
      rfl
    · exact absurd (hok pg.pgno) h2
    · rw [List.filter_cons_of_neg (by simp [h1])]
      exact ih p

/-! ## Claim C5: database-file writes are page-aligned and page-sized -/

/-- C5: every write pager_write_pagelist issues to the database file is
exactly one page long and starts at offset (pgno-1)*pageSize, so all
database-file writes are page-sized multiples aligned on page
boundaries. -/
theorem writes_page_aligned (p : Pager) (env : IOEnv) (l : List PgHdr) (ev : WriteEvent)
    (hev : ev ∈ (pager_write_pagelist p env l).2.2) :
    ev.offset = (ev.pgno - 1) * p.pageSize ∧ ev.len = p.pageSize := by
  unfold pager_write_pagelist at hev
  have h := pager_write_loop_aligned env l (pager_write_hint p l) ev hev
  rw [(pager_write_hint_proj p l).1] at h
  exact h

/-- C5 witness: in a concrete run writing page 2 with page size 512, the
event recorded is at offset 512 with length 512. -/
theorem writes_page_aligned_witness :
    (⟨2, 512, 512, PGHDR_DIRTY + PGHDR_NEED_SYNC, [9, 9, 9]⟩ : WriteEvent) ∈
        (pager_write_pagelist pagerW envOK [pgW]).2.2 ∧
      ((⟨2, 512, 512, PGHDR_DIRTY + PGHDR_NEED_SYNC, [9, 9, 9]⟩ : WriteEvent).offset =
          ((⟨2, 512, 512, PGHDR_DIRTY + PGHDR_NEED_SYNC, [9, 9, 9]⟩ : WriteEvent).pgno - 1) *
            pagerW.pageSize ∧
        (⟨2, 512, 512, PGHDR_DIRTY + PGHDR_NEED_SYNC, [9, 9, 9]⟩ : WriteEvent).len =
          pagerW.pageSize) :=
  ⟨by decide, writes_page_aligned pagerW envOK [pgW] _ (by decide)⟩

/-! ## Claim C3: the write loop writes exactly the eligible pages -/

/-- C3: when every OS write succeeds, pager_write_pagelist returns
SQLITE_OK and its write trace is exactly the pages of the list whose
page number is at most Pager.dbSize and whose PGHDR_DONT_WRITE flag is
clear, in list order: a page failing either test produces no VFS write
and the loop continues with the next page. -/
theorem pager_write_pagelist_skip (p : Pager) (env : IOEnv) (l : List PgHdr)
    (hok : ∀ n, env.writeRc n = SQLITE_OK) :
    (pager_write_pagelist p env l).1 = SQLITE_OK ∧
      (pager_write_pagelist p env l).2.2 = (l.filter (eligible p)).map (evOf p.pageSize) := by
  have h := pager_write_loop_ok env hok l (pager_write_hint p l)
  unfold pager_write_pagelist
  refine ⟨h.1, ?_⟩
  rw [h.2, (pager_write_hint_proj p l).1,
    List.filter_congr (fun x _ => eligible_congr (pager_write_hint_proj p l).2.1 x)]

/-- C3 witness: a concrete run over a two-page list where page 3 carries
PGHDR_DONT_WRITE: the trace holds exactly the event for page 2. -/
theorem pager_write_pagelist_skip_witness :
    (∀ n, envOK.writeRc n = SQLITE_OK) ∧
      ((pager_write_pagelist pagerW envOK [pgW, pgSkipW]).1 = SQLITE_OK ∧
        (pager_write_pagelist pagerW envOK [pgW, pgSkipW]).2.2 =
          ([pgW, pgSkipW].filter (eligible pagerW)).map (evOf pagerW.pageSize)) :=
  ⟨fun _ => rfl, pager_write_pagelist_skip pagerW envOK [pgW, pgSkipW] (fun _ => rfl)⟩

/-! ## Claim C9: the table-based memsys5Roundup versus the original -/

/-- C9: the table-based memsys5Roundup is not equivalent to the original
doubling loop it replaces.  With the minimum szAtom of 8 the table holds
sizes 8..0x20000000 only (the population loop stops strictly below
0x40000000), so for n = 0x40000000 the original returns 0x40000000 while
the replacement finds every one of the 32 table slots (filled entries and
the zero-initialised tail alike) below n and runs off the end of the
array: an out-of-bounds read, modelled as none. -/
theorem memsys5Roundup_table_bug :
    memsys5RoundupOrig 8 0x40000000 = 0x40000000 ∧
      memsys5Roundup (blockSizeTable 8) 0x40000000 = none := by
  constructor
  · decide
  · decide

/-! ## Claim C7: Pager.dbSize in READER state versus the in-header count -/

/-- C7 counterexample: a nonempty 1024-byte file with page size 2048 has
dbSize 1 by the file-size rule of src/unnamed/part_002 (any nonempty file
counts as at least one page), while the in-header size field at offset 28
reads 0: dbSize does not equal the count derived from the on-disk
header. -/
theorem dbSize_header_mismatch :
    dbSizeOfFile 2048 1024 = 1 ∧ inHeaderPageCount smallFileW = 0 ∧
      ¬ dbSizeOfFile 2048 1024 = inHeaderPageCount smallFileW := by
  refine ⟨by decide, by decide, by decide⟩

/-- C7 amended: Pager.dbSize in READER state equals the page count
derived from the byte size of the database file, not from the in-header
size field: an empty file has zero pages, any nonempty file at least
one, and a file of at least one page has the rounded-down count, the
greatest n with n*pageSize within the file size. -/
theorem dbSize_from_file_size (ps fs : Nat) (hps : 0 < ps) :
    (fs = 0 → dbSizeOfFile ps fs = 0) ∧ (0 < fs → 1 ≤ dbSizeOfFile ps fs) ∧
      (ps ≤ fs → dbSizeOfFile ps fs * ps ≤ fs ∧ fs < (dbSizeOfFile ps fs + 1) * ps) := by
  unfold dbSizeOfFile
  refine ⟨fun h => by simp [h], fun h => ?_, fun h => ?_⟩
  · rw [if_neg (by omega)]
    exact le_max_left _ _
  · rw [if_neg (by omega : ¬ fs = 0)]
    have h1 : 1 ≤ fs / ps := (Nat.one_le_div_iff hps).mpr h
    rw [max_eq_right h1]
    refine ⟨Nat.div_mul_le_self fs ps, ?_⟩
    have hm := Nat.div_add_mod fs ps
    have hlt : fs % ps < ps := Nat.mod_lt _ hps
    calc fs = ps * (fs / ps) + fs % ps := hm.symm
      _ < ps * (fs / ps) + ps := by omega
      _ = (fs / ps + 1) * ps := by ring

/-- C7 amended witness: the 5120-byte file with 2048-byte pages from the
source comment: dbSize 2, the greatest multiple fitting in the file. -/
theorem dbSize_from_file_size_witness :
    (5120 = 0 → dbSizeOfFile 2048 5120 = 0) ∧ (0 < 5120 → 1 ≤ dbSizeOfFile 2048 5120) ∧
      (2048 ≤ 5120 →
        dbSizeOfFile 2048 5120 * 2048 ≤ 5120 ∧ 5120 < (dbSizeOfFile 2048 5120 + 1) * 2048) :=
  dbSize_from_file_size 2048 5120 (by decide)

/-! ## Projection lemmas for pagerStress -/

/-- pager_error returns the code unchanged and only touches errCode and
eState. -/
theorem pager_error_proj (p : Pager) (rc : Nat) :
    (pager_error p rc).1 = rc ∧ (pager_error p rc).2.statSpill = p.statSpill ∧
      (pager_error p rc).2.cache = p.cache := by
  simp only [pager_error]
  split_ifs <;> exact ⟨rfl, rfl, rfl⟩

/-- stressFinish returns the incoming code, cleans the victim exactly on
SQLITE_OK, and only touches errCode and eState of the pager. -/
theorem stressFinish_proj (p : Pager) (pg : PgHdr) (evs : List WriteEvent)
    (frames : List Nat) (synced : Bool) (rc : Nat) :
    (stressFinish p pg evs frames synced rc).rc = rc ∧
      (stressFinish p pg evs frames synced rc).pager.statSpill = p.statSpill ∧
      (stressFinish p pg evs frames synced rc).pager.cache = p.cache ∧
      (stressFinish p pg evs frames synced rc).writes = evs ∧
      (stressFinish p pg evs frames synced rc).walFrames = frames ∧
      (stressFinish p pg evs frames synced rc).syncedJournal = synced ∧
      (stressFinish p pg evs frames synced rc).madeClean = decide (rc = SQLITE_OK) := by
  simp only [stressFinish, pager_error]
  split_ifs <;> simp

/-- When the code is a FULL or I/O error, stressFinish hands back a pager
latched in the ERROR state with that code. -/
theorem stressFinish_error (p : Pager) (pg : PgHdr) (evs : List WriteEvent)
    (frames : List Nat) (synced : Bool) (rc : Nat)
    (h : rc % 256 = SQLITE_FULL ∨ rc % 256 = SQLITE_IOERR) :
    (stressFinish p pg evs frames synced rc).pager.eState = PAGER_ERROR ∧
      (stressFinish p pg evs frames synced rc).pager.errCode = rc := by
  simp only [stressFinish, pager_error]
  rw [if_pos h]
  exact ⟨rfl, rfl⟩

/-- pager_write_pagelist only touches dbFileVers, dbFileSize, dbHintSize
and the write statistic of the pager. -/
theorem pager_write_pagelist_proj (p : Pager) (env : IOEnv) (l : List PgHdr) :
    (pager_write_pagelist p env l).2.1.statSpill = p.statSpill ∧
      (pager_write_pagelist p env l).2.1.cache = p.cache ∧
      (pager_write_pagelist p env l).2.1.eState = p.eState := by
  unfold pager_write_pagelist
  have h1 := pager_write_loop_proj env l (pager_write_hint p l)
  have h2 := pager_write_hint_proj p l
  exact ⟨h1.2.2.1.trans h2.2.2.1, h1.2.2.2.1.trans h2.2.2.2.1,
    h1.2.2.2.2.1.trans h2.2.2.2.2.1⟩

/-- syncJournal leaves the spill statistic alone. -/
theorem syncJournal_statSpill (p : Pager) (env : IOEnv) (pg : PgHdr) :
    (syncJournal p env pg).2.1.statSpill = p.statSpill := by
  unfold syncJournal
  split_ifs <;> rfl

/-! ## Claim C2: the doNotSpill refusal logic of pagerStress -/

/-- C2: when any doNotSpill bit is set and either OFF or ROLLBACK is
among them or the dirty victim needs a sync, pagerStress returns
SQLITE_OK having written nothing, synced nothing and left the victim's
flags (its DIRTY flag included) untouched; conversely when doNotSpill is
zero, or only NOSYNC is set and the page does not need a sync, the spill
proceeds (the spill statistic of pager-imp.c line 64 is bumped).  The
error-state guard NEVER(pPager->errCode) at line 53 makes errCode zero
the only reachable case. -/
theorem pagerStress_doNotSpill (p : Pager) (env : IOEnv) (pg : PgHdr)
    (hdirty : pg.flags &&& PGHDR_DIRTY ≠ 0) (herr : p.errCode = 0) :
    (p.doNotSpill ≠ 0 ∧
        (p.doNotSpill &&& (SPILLFLAG_ROLLBACK ||| SPILLFLAG_OFF) ≠ 0 ∨
          pg.flags &&& PGHDR_NEED_SYNC ≠ 0) →
      pagerStress p env pg =
          { rc := SQLITE_OK, pager := p, pg := pg, writes := [], walFrames := []
            syncedJournal := false, madeClean := false } ∧
        (pagerStress p env pg).pg.flags &&& PGHDR_DIRTY ≠ 0) ∧
    ((p.doNotSpill = 0 ∨
        (p.doNotSpill = SPILLFLAG_NOSYNC ∧ pg.flags &&& PGHDR_NEED_SYNC = 0)) →
      (pagerStress p env pg).pager.statSpill = p.statSpill + 1) := by
  constructor
  · intro hrefuse
    have heq : pagerStress p env pg =
        { rc := SQLITE_OK, pager := p, pg := pg, writes := [], walFrames := []
          syncedJournal := false, madeClean := false } := by
      unfold pagerStress
      rw [if_neg (fun h => h herr), if_pos hrefuse]
    exact ⟨heq, by rw [heq]; exact hdirty⟩
  · intro hgo
    have hno : ¬(p.doNotSpill ≠ 0 ∧
        (p.doNotSpill &&& (SPILLFLAG_ROLLBACK ||| SPILLFLAG_OFF) ≠ 0 ∨
          pg.flags &&& PGHDR_NEED_SYNC ≠ 0)) := by
      rcases hgo with h | ⟨h1, h2⟩
      · exact fun hc => hc.1 h
      · intro hc
        rcases hc.2 with hb | hb
        · rw [h1] at hb
          exact hb (by decide)
        · exact hb h2
    unfold pagerStress
    rw [if_neg (fun h => h herr), if_neg hno]
    cases hw : p.useWal with
    | true =>
      simp only [hw, if_true]
      exact (stressFinish_proj _ _ _ _ _ _).2.1
    | false =>
      simp only [hw, if_false, Bool.false_eq_true]
      split_ifs with hsync hrc
      · rw [(stressFinish_proj _ _ _ _ _ _).2.1, (pager_write_pagelist_proj _ _ _).1,
          syncJournal_statSpill]
      · rw [(stressFinish_proj _ _ _ _ _ _).2.1, syncJournal_statSpill]
      · rw [(stressFinish_proj _ _ _ _ _ _).2.1, (pager_write_pagelist_proj _ _ _).1]

/-- C2 witness: with the ROLLBACK bit set and a dirty victim, the
concrete refusal and (vacuously instantiated) proceed clauses hold. -/
theorem pagerStress_doNotSpill_witness :
    pgW.flags &&& PGHDR_DIRTY ≠ 0 ∧ pagerRollbackW.errCode = 0 ∧
      ((pagerRollbackW.doNotSpill ≠ 0 ∧
          (pagerRollbackW.doNotSpill &&& (SPILLFLAG_ROLLBACK ||| SPILLFLAG_OFF) ≠ 0 ∨
            pgW.flags &&& PGHDR_NEED_SYNC ≠ 0) →
        pagerStress pagerRollbackW envOK pgW =
            { rc := SQLITE_OK, pager := pagerRollbackW, pg := pgW, writes := []
              walFrames := [], syncedJournal := false, madeClean := false } ∧
          (pagerStress pagerRollbackW envOK pgW).pg.flags &&& PGHDR_DIRTY ≠ 0) ∧
      ((pagerRollbackW.doNotSpill = 0 ∨
          (pagerRollbackW.doNotSpill = SPILLFLAG_NOSYNC ∧
            pgW.flags &&& PGHDR_NEED_SYNC = 0)) →
        (pagerStress pagerRollbackW envOK pgW).pager.statSpill =
          pagerRollbackW.statSpill + 1)) :=
  ⟨by decide, rfl, pagerStress_doNotSpill pagerRollbackW envOK pgW (by decide) rfl⟩

/-! ## Claim C1: a page needing sync is never written in rollback mode -/

/-- The change-counter rewrite does not touch the flag word, so the event
carries the flags of the page handed to the loop. -/
theorem writeEv_flags (p : Pager) (x : PgHdr) : (writeEv p x).flags = x.flags := by
  simp only [writeEv]
  split_ifs <;> rfl

/-- The write loop on a one-page list produces the single event for that
page when it is eligible and nothing otherwise. -/
theorem pager_write_loop_single (env : IOEnv) (q : Pager) (x : PgHdr) :
    (pager_write_loop env q [x]).2.2 = if eligible q x then [writeEv q x] else [] := by
  rw [pager_write_loop]
  split_ifs <;> rfl

/-- pager_write_pagelist on a one-page list: the single event or
nothing. -/
theorem pager_write_pagelist_single (p : Pager) (env : IOEnv) (x : PgHdr) :
    (pager_write_pagelist p env [x]).2.2 =
      if eligible (pager_write_hint p [x]) x then [writeEv (pager_write_hint p [x]) x]
      else [] := by
  unfold pager_write_pagelist
  exact pager_write_loop_single env (pager_write_hint p [x]) x

/-- syncJournal returns the oracle's sync code. -/
theorem syncJournal_rc (p : Pager) (env : IOEnv) (pg : PgHdr) :
    (syncJournal p env pg).1 = env.syncRc := by
  unfold syncJournal
  split_ifs with h h2 <;> simp [h]

/-- A successful syncJournal hands back the victim with its NEED_SYNC
flag cleared. -/
theorem syncJournal_pg (p : Pager) (env : IOEnv) (pg : PgHdr) (h : env.syncRc = SQLITE_OK) :
    (syncJournal p env pg).2.2 = clearNeedSync pg := by
  unfold syncJournal
  rw [if_pos h]

/-- C1: in rollback mode a page with PGHDR_NEED_SYNC is never written to
the database file by pagerStress: when the victim needs a sync the
journal is synced first, which clears NEED_SYNC, so every page handed to
sqlite3OsWrite has a clear NEED_SYNC flag (the assertions at pager-imp.c
lines 90 and 181 never fail), and a run that wrote a NEED_SYNC victim
has synced the journal. -/
theorem pagerStress_need_sync_clear (p : Pager) (env : IOEnv) (pg : PgHdr)
    (hwal : p.useWal = false) :
    (∀ ev ∈ (pagerStress p env pg).writes, ev.flags &&& PGHDR_NEED_SYNC = 0) ∧
      ((pagerStress p env pg).writes ≠ [] → pg.flags &&& PGHDR_NEED_SYNC ≠ 0 →
        (pagerStress p env pg).syncedJournal = true) := by
  by_cases h1 : p.errCode ≠ 0
  · simp only [pagerStress, if_pos h1]
    exact ⟨fun ev hev => absurd hev (List.not_mem_nil ev), fun h => absurd rfl h⟩
  · by_cases h2 : p.doNotSpill ≠ 0 ∧
        (p.doNotSpill &&& (SPILLFLAG_ROLLBACK ||| SPILLFLAG_OFF) ≠ 0 ∨
          pg.flags &&& PGHDR_NEED_SYNC ≠ 0)
    · simp only [pagerStress, if_neg h1, if_pos h2]
      exact ⟨fun ev hev => absurd hev (List.not_mem_nil ev), fun h => absurd rfl h⟩
    · simp only [pagerStress, if_neg h1, if_neg h2, hwal, Bool.false_eq_true, if_false]
      split_ifs with hsync hrc
      · have hok : env.syncRc = SQLITE_OK := by
          rw [syncJournal_rc] at hrc
          exact hrc
        rw [syncJournal_pg _ env pg hok]
        constructor
        · intro ev hev
          rw [(stressFinish_proj _ _ _ _ _ _).2.2.2.1] at hev
          rw [pager_write_pagelist_single] at hev
          split_ifs at hev with helig
          · rw [List.mem_singleton.mp hev, writeEv_flags]
            exact land_FFF7_bit8 pg.flags
          · exact absurd hev (List.not_mem_nil ev)
        · intro hne hns
          exact (stressFinish_proj _ _ _ _ _ _).2.2.2.2.2.1
      · refine ⟨?_, ?_⟩
        · intro ev hev
          rw [(stressFinish_proj _ _ _ _ _ _).2.2.2.1] at hev
          exact absurd hev (List.not_mem_nil ev)
        · intro hne
          rw [(stressFinish_proj _ _ _ _ _ _).2.2.2.1] at hne
          exact absurd rfl hne
      · have hclear : pg.flags &&& PGHDR_NEED_SYNC = 0 := by
          push_neg at hsync
          omega
        refine ⟨?_, fun _ hns => absurd hclear hns⟩
        intro ev hev
        rw [(stressFinish_proj _ _ _ _ _ _).2.2.2.1] at hev
        rw [pager_write_pagelist_single] at hev
        split_ifs at hev with helig
        · rw [List.mem_singleton.mp hev, writeEv_flags]
          exact hclear
        · exact absurd hev (List.not_mem_nil ev)

/-- C1 witness: the concrete NEED_SYNC victim pgW is spilled through
pagerW with every I/O call succeeding; the written event has NEED_SYNC
clear and the journal was synced. -/
theorem pagerStress_need_sync_clear_witness :
    pagerW.useWal = false ∧
      ((∀ ev ∈ (pagerStress pagerW envOK pgW).writes, ev.flags &&& PGHDR_NEED_SYNC = 0) ∧
        ((pagerStress pagerW envOK pgW).writes ≠ [] → pgW.flags &&& PGHDR_NEED_SYNC ≠ 0 →
          (pagerStress pagerW envOK pgW).syncedJournal = true)) :=
  ⟨rfl, pagerStress_need_sync_clear pagerW envOK pgW rfl⟩

/-! ## Claim C4: success cleans the victim, failure latches ERROR -/

/-- What the tail of pagerStress guarantees for any incoming code: on
SQLITE_OK the victim was made clean; on any other code it was not, and a
FULL or I/O code latches the pager in the ERROR state with that code,
which is returned unchanged. -/
theorem stressFinish_c4 (p : Pager) (pg : PgHdr) (evs : List WriteEvent)
    (frames : List Nat) (synced : Bool) (rc : Nat) :
    ((stressFinish p pg evs frames synced rc).rc = SQLITE_OK →
        (stressFinish p pg evs frames synced rc).madeClean = true) ∧
      ((stressFinish p pg evs frames synced rc).rc ≠ SQLITE_OK →
        (stressFinish p pg evs frames synced rc).madeClean = false ∧
          ((stressFinish p pg evs frames synced rc).rc % 256 = SQLITE_FULL ∨
              (stressFinish p pg evs frames synced rc).rc % 256 = SQLITE_IOERR →
            (stressFinish p pg evs frames synced rc).pager.eState = PAGER_ERROR ∧
              (stressFinish p pg evs frames synced rc).pager.errCode =
                (stressFinish p pg evs frames synced rc).rc)) := by
  have hrc := (stressFinish_proj p pg evs frames synced rc).1
  have hmc := (stressFinish_proj p pg evs frames synced rc).2.2.2.2.2.2
  rw [hrc, hmc]
  constructor
  · intro h
    rw [h]
    rfl
  · intro h
    refine ⟨by simp [h], fun herr2 => ?_⟩
    exact stressFinish_error p pg evs frames synced rc herr2

/-- C4: for every pagerStress call that attempts a spill (is not
refused): when the result code is SQLITE_OK the victim was made clean
(sqlite3PcacheMakeClean ran); when the journal sync, the WAL frame
append or the database write failed, the victim is not cleaned, and the
error code goes through pager_error, which for FULL and I/O codes moves
the pager to the ERROR state with the code latched, and is returned to
the caller. -/
theorem pagerStress_error_path (p : Pager) (env : IOEnv) (pg : PgHdr)
    (herr : p.errCode = 0)
    (hgo : ¬(p.doNotSpill ≠ 0 ∧
      (p.doNotSpill &&& (SPILLFLAG_ROLLBACK ||| SPILLFLAG_OFF) ≠ 0 ∨
        pg.flags &&& PGHDR_NEED_SYNC ≠ 0))) :
    ((pagerStress p env pg).rc = SQLITE_OK → (pagerStress p env pg).madeClean = true) ∧
      ((pagerStress p env pg).rc ≠ SQLITE_OK →
        (pagerStress p env pg).madeClean = false ∧
          ((pagerStress p env pg).rc % 256 = SQLITE_FULL ∨
              (pagerStress p env pg).rc % 256 = SQLITE_IOERR →
            (pagerStress p env pg).pager.eState = PAGER_ERROR ∧
              (pagerStress p env pg).pager.errCode = (pagerStress p env pg).rc)) := by
  have h1 : ¬p.errCode ≠ 0 := fun h => h herr
  simp only [pagerStress, if_neg h1, if_neg hgo]
  split_ifs <;> exact stressFinish_c4 _ _ _ _ _ _

/-- C4 witness: the concrete successful spill of pgW through pagerW
instantiates both clauses. -/
theorem pagerStress_error_path_witness :
    pagerW.errCode = 0 ∧
      ¬(pagerW.doNotSpill ≠ 0 ∧
        (pagerW.doNotSpill &&& (SPILLFLAG_ROLLBACK ||| SPILLFLAG_OFF) ≠ 0 ∨
          pgW.flags &&& PGHDR_NEED_SYNC ≠ 0)) ∧
      (((pagerStress pagerW envOK pgW).rc = SQLITE_OK →
          (pagerStress pagerW envOK pgW).madeClean = true) ∧
        ((pagerStress pagerW envOK pgW).rc ≠ SQLITE_OK →
          (pagerStress pagerW envOK pgW).madeClean = false ∧
            ((pagerStress pagerW envOK pgW).rc % 256 = SQLITE_FULL ∨
                (pagerStress pagerW envOK pgW).rc % 256 = SQLITE_IOERR →
              (pagerStress pagerW envOK pgW).pager.eState = PAGER_ERROR ∧
                (pagerStress pagerW envOK pgW).pager.errCode =
                  (pagerStress pagerW envOK pgW).rc))) :=
  ⟨rfl, by decide, pagerStress_error_path pagerW envOK pgW rfl (by decide)⟩

/-! ## Claim C10: the frame effect of a pagerStress call -/

/-- The event built for a page carries that page's number. -/
theorem writeEv_pgno (p : Pager) (x : PgHdr) : (writeEv p x).pgno = x.pgno := rfl

/-- A successful syncJournal clears NEED_SYNC across the cached pages. -/
theorem syncJournal_cache_ok (p : Pager) (env : IOEnv) (pg : PgHdr)
    (h : env.syncRc = SQLITE_OK) :
    (syncJournal p env pg).2.1.cache = p.cache.map clearNeedSync := by
  unfold syncJournal
  rw [if_pos h]

/-- A failing syncJournal changes nothing. -/
theorem syncJournal_fail (p : Pager) (env : IOEnv) (pg : PgHdr)
    (h : ¬env.syncRc = SQLITE_OK) :
    (syncJournal p env pg).2.1 = p ∧ (syncJournal p env pg).2.2 = pg := by
  unfold syncJournal
  rw [if_neg h]
  exact ⟨rfl, rfl⟩

/-- C10 counterexample: a successful spill of the NEED_SYNC victim pgW
(page 2) through pagerW changes the flags of the other cached page
(page 5): the journal sync performed for the victim clears the NEED_SYNC
flag of every cached page, so the cache flags of pages other than the
victim are not all unchanged by the call. -/
theorem pagerStress_frame_counterexample :
    (pagerStress pagerW envOK pgW).rc = SQLITE_OK ∧
      (pagerStress pagerW envOK pgW).madeClean = true ∧
      ¬(pagerStress pagerW envOK pgW).pager.cache = pagerW.cache := by
  refine ⟨by decide, by decide, by decide⟩

/-- C10 amended: a pagerStress call writes at most one page to the
database file, and every write it issues is for the victim's page
number, so the on-disk content of every other page is unchanged; the
cached pages other than the victim keep their flags except that a
journal sync performed during the spill clears their NEED_SYNC flags. -/
theorem pagerStress_frame (p : Pager) (env : IOEnv) (pg : PgHdr) :
    (pagerStress p env pg).writes.length ≤ 1 ∧
      (∀ ev ∈ (pagerStress p env pg).writes, ev.pgno = pg.pgno) ∧
      ((pagerStress p env pg).pager.cache = p.cache ∨
        (pagerStress p env pg).pager.cache = p.cache.map clearNeedSync) := by
  by_cases h1 : p.errCode ≠ 0
  · simp only [pagerStress, if_pos h1]
    exact ⟨by simp, fun ev hev => absurd hev (List.not_mem_nil ev), Or.inl trivial⟩
  · by_cases h2 : p.doNotSpill ≠ 0 ∧
        (p.doNotSpill &&& (SPILLFLAG_ROLLBACK ||| SPILLFLAG_OFF) ≠ 0 ∨
          pg.flags &&& PGHDR_NEED_SYNC ≠ 0)
    · simp only [pagerStress, if_neg h1, if_pos h2]
      exact ⟨by simp, fun ev hev => absurd hev (List.not_mem_nil ev), Or.inl trivial⟩
    · simp only [pagerStress, if_neg h1, if_neg h2]
      cases hw : p.useWal with
      | true =>
        simp only [hw, if_true]
        refine ⟨?_, ?_, ?_⟩
        · rw [(stressFinish_proj _ _ _ _ _ _).2.2.2.1]
          simp
        · intro ev hev
          rw [(stressFinish_proj _ _ _ _ _ _).2.2.2.1] at hev
          exact absurd hev (List.not_mem_nil ev)
        · rw [(stressFinish_proj _ _ _ _ _ _).2.2.1]
          exact Or.inl rfl
      | false =>
        simp only [hw, Bool.false_eq_true, if_false]
        split_ifs with hsync hrc
        · have hok : env.syncRc = SQLITE_OK := by
            rw [syncJournal_rc] at hrc
            exact hrc
          refine ⟨?_, ?_, ?_⟩
          · rw [(stressFinish_proj _ _ _ _ _ _).2.2.2.1, pager_write_pagelist_single]
            split_ifs <;> simp
          · intro ev hev
            rw [(stressFinish_proj _ _ _ _ _ _).2.2.2.1, pager_write_pagelist_single] at hev
            split_ifs at hev with helig
            · rw [List.mem_singleton.mp hev, writeEv_pgno, syncJournal_pg _ env pg hok]
              rfl
            · exact absurd hev (List.not_mem_nil ev)
          · rw [(stressFinish_proj _ _ _ _ _ _).2.2.1, (pager_write_pagelist_proj _ _ _).2.1,
              syncJournal_cache_ok _ env pg hok]
            exact Or.inr rfl
        · have hne : ¬env.syncRc = SQLITE_OK := by
            rw [syncJournal_rc] at hrc
            exact hrc
          refine ⟨?_, ?_, ?_⟩
          · rw [(stressFinish_proj _ _ _ _ _ _).2.2.2.1]
            simp
          · intro ev hev
            rw [(stressFinish_proj _ _ _ _ _ _).2.2.2.1] at hev
            exact absurd hev (List.not_mem_nil ev)
          · rw [(stressFinish_proj _ _ _ _ _ _).2.2.1,
              (syncJournal_fail _ env pg hne).1]
            exact Or.inl rfl
        · refine ⟨?_, ?_, ?_⟩
          · rw [(stressFinish_proj _ _ _ _ _ _).2.2.2.1, pager_write_pagelist_single]
            split_ifs <;> simp
          · intro ev hev
            rw [(stressFinish_proj _ _ _ _ _ _).2.2.2.1, pager_write_pagelist_single] at hev
            split_ifs at hev with helig
            · rw [List.mem_singleton.mp hev, writeEv_pgno]
            · exact absurd hev (List.not_mem_nil ev)
          · rw [(stressFinish_proj _ _ _ _ _ _).2.2.1, (pager_write_pagelist_proj _ _ _).2.1]
            exact Or.inl rfl

/-! ## Claim C8: the change counter mutates on every page-1 write -/

/-- Reading an index other than the one just set is unchanged. -/
theorem getD_set_ne (d : List Nat) (i j v : Nat) (h : i ≠ j) :
    (d.set i v).getD j 0 = d.getD j 0 := by
  simp [List.getD_eq_getElem?_getD, List.getElem?_set_ne h]

theorem getD_set_self (d : List Nat) (i v : Nat) (h : i < d.length) :
    (d.set i v).getD i 0 = v := by
  simp [List.getD_eq_getElem?_getD, List.getElem?_set_self, h]

theorem getD_put4_ne (off v j : Nat) (d : List Nat) (h : j < off ∨ off + 3 < j) :
    (put4 off v d).getD j 0 = d.getD j 0 := by
  unfold put4
  rw [getD_set_ne _ _ _ _ (by omega), getD_set_ne _ _ _ _ (by omega),
    getD_set_ne _ _ _ _ (by omega), getD_set_ne _ _ _ _ (by omega)]

theorem get4_put4 (off v : Nat) (d : List Nat) (hlen : off + 3 < d.length) (hv : v < 2 ^ 32) :
    get4 off (put4 off v d) = v := by
  have g0 : (put4 off v d).getD off 0 = v / 2 ^ 24 % 256 := by
    unfold put4
    rw [getD_set_ne _ _ _ _ (by omega), getD_set_ne _ _ _ _ (by omega),
      getD_set_ne _ _ _ _ (by omega)]
    exact getD_set_self d off _ (by omega)
  have g1 : (put4 off v d).getD (off + 1) 0 = v / 2 ^ 16 % 256 := by
    unfold put4
    rw [getD_set_ne _ _ _ _ (by omega), getD_set_ne _ _ _ _ (by omega)]
    exact getD_set_self _ _ _ (by simp only [List.length_set]; omega)
  have g2 : (put4 off v d).getD (off + 2) 0 = v / 2 ^ 8 % 256 := by
    unfold put4
    rw [getD_set_ne _ _ _ _ (by omega)]
    exact getD_set_self _ _ _ (by simp only [List.length_set]; omega)
  have g3 : (put4 off v d).getD (off + 3) 0 = v % 256 := by
    unfold put4
    exact getD_set_self _ _ _ (by simp only [List.length_set]; omega)
  unfold get4
  rw [g0, g1, g2, g3]
  omega

theorem getD_lt_256 (d : List Nat) (j : Nat) (hb : ∀ b ∈ d, b < 256) :
    d.getD j 0 < 256 := by
  by_cases hj : j < d.length
  · have hmem : d.getD j 0 ∈ d := by
      rw [List.getD_eq_getElem?_getD, List.getElem?_eq_getElem hj]
      exact List.getElem_mem hj
    exact hb _ hmem
  · rw [List.getD_eq_getElem?_getD, List.getElem?_eq_none (by omega)]
    norm_num

theorem get4_lt (off : Nat) (d : List Nat) (hb : ∀ b ∈ d, b < 256) :
    get4 off d < 2 ^ 32 := by
  have h0 := getD_lt_256 d off hb
  have h1 := getD_lt_256 d (off + 1) hb
  have h2 := getD_lt_256 d (off + 2) hb
  have h3 := getD_lt_256 d (off + 3) hb
  unfold get4
  omega

theorem changecounter_differs (pg : PgHdr) (hlen : 100 ≤ pg.pData.length)
    (hb : ∀ b ∈ pg.pData, b < 256) :
    ∃ j, 24 ≤ j ∧ j ≤ 27 ∧
      (pager_write_changecounter pg).pData.getD j 0 ≠ pg.pData.getD j 0 := by
  by_contra hcon
  push_neg at hcon
  set cc := (get4 24 pg.pData + 1) % 2 ^ 32 with hcc
  have hdd : (pager_write_changecounter pg).pData =
      put4 96 SQLITE_VERSION_NUMBER (put4 92 cc (put4 24 cc pg.pData)) := rfl
  have hinner : ∀ j, 24 ≤ j → j ≤ 27 →
      (put4 24 cc pg.pData).getD j 0 = pg.pData.getD j 0 := by
    intro j ha hbj
    have h := hcon j ha hbj
    rw [hdd, getD_put4_ne _ _ _ _ (by omega), getD_put4_ne _ _ _ _ (by omega)] at h
    exact h
  have hget : get4 24 (put4 24 cc pg.pData) = cc :=
    get4_put4 24 _ pg.pData (by omega) (by rw [hcc]; exact Nat.mod_lt _ (by norm_num))
  have hsame : get4 24 (put4 24 cc pg.pData) = get4 24 pg.pData := by
    unfold get4
    rw [hinner 24 (by omega) (by omega), hinner (24 + 1) (by omega) (by omega),
      hinner (24 + 2) (by omega) (by omega), hinner (24 + 3) (by omega) (by omega)]
  have hlt := get4_lt 24 pg.pData hb
  omega

theorem writeEv_data_pg1 (q : Pager) (pg : PgHdr) (h : pg.pgno = 1) :
    (writeEv q pg).data = (pager_write_changecounter pg).pData := by
  simp only [writeEv]
  rw [if_pos h]

/-- C8: whenever pager_write_pagelist writes page 1 (as the commit of
every content-modifying transaction does before the EXCLUSIVE lock is
released), pager_write_changecounter runs on the page first, and the
bytes 24-27 put on disk differ from their pre-transaction value, so at
least one bit of the change-counter region changes. -/
theorem changecounter_written (p : Pager) (env : IOEnv) (pg : PgHdr)
    (hpg : pg.pgno = 1) (hsz : 1 ≤ p.dbSize) (hdw : pg.flags &&& PGHDR_DONT_WRITE = 0)
    (hlen : 100 ≤ pg.pData.length) (hb : ∀ b ∈ pg.pData, b < 256) :
    ∃ ev, (pager_write_pagelist p env [pg]).2.2 = [ev] ∧
      ev.data = (pager_write_changecounter pg).pData ∧
      ∃ j, 24 ≤ j ∧ j ≤ 27 ∧ ev.data.getD j 0 ≠ pg.pData.getD j 0 := by
  have helig : eligible (pager_write_hint p [pg]) pg = true := by
    simp only [eligible, decide_eq_true_eq]
    rw [hpg, (pager_write_hint_proj p [pg]).2.1]
    exact ⟨hsz, hdw⟩
  rw [pager_write_pagelist_single, if_pos helig]
  refine ⟨writeEv (pager_write_hint p [pg]) pg, rfl, writeEv_data_pg1 _ pg hpg, ?_⟩
  obtain ⟨j, h1, h2, h3⟩ := changecounter_differs pg hlen hb
  refine ⟨j, h1, h2, ?_⟩
  rw [writeEv_data_pg1 _ pg hpg]
  exact h3

/-- C8 witness: writing the concrete all-zero page-1 image through
pagerW: the single event's bytes 24-27 differ from the zeros that were
there. -/
theorem changecounter_written_witness :
    pg1W.pgno = 1 ∧ 1 ≤ pagerW.dbSize ∧ pg1W.flags &&& PGHDR_DONT_WRITE = 0 ∧
      100 ≤ pg1W.pData.length ∧ (∀ b ∈ pg1W.pData, b < 256) ∧
      ∃ ev, (pager_write_pagelist pagerW envOK [pg1W]).2.2 = [ev] ∧
        ev.data = (pager_write_changecounter pg1W).pData ∧
        ∃ j, 24 ≤ j ∧ j ≤ 27 ∧ ev.data.getD j 0 ≠ pg1W.pData.getD j 0 :=
  ⟨rfl, by decide, by decide, by decide, by decide,
    changecounter_written pagerW envOK pg1W rfl (by decide) (by decide) (by decide)
      (by decide)⟩

/-! ## Claim C6: the pSynced bookmark is a valid witness -/

/-- Splitting a list at its first element failing the predicate. -/
theorem takeWhile_split {α} (p : α → Bool) (pre : List α) (e : α) (post : List α)
    (hpre : ∀ x ∈ pre, p x = true) (he : p e = false) :
    (pre ++ e :: post).takeWhile p = pre ∧ (pre ++ e :: post).dropWhile p = e :: post := by
  induction pre with
  | nil => simp [List.takeWhile_cons, List.dropWhile_cons, he]
  | cons a as ih =>
    have ha : p a = true := hpre a (by simp)
    have h2 := ih (fun x hx => hpre x (by simp [hx]))
    simp [List.takeWhile_cons, List.dropWhile_cons, ha, h2.1, h2.2]

/-- The head of a nonempty dropWhile residue fails the predicate. -/
theorem dropWhile_head_false {α} (p : α → Bool) :
    ∀ (l : List α) (y : α) (t : List α), l.dropWhile p = y :: t → p y = false := by
  intro l
  induction l with
  | nil => intro y t h; simp at h
  | cons a as ih =>
    intro y t h
    rw [List.dropWhile_cons] at h
    split_ifs at h with ha
    · exact ih y t h
    · cases h
      simpa using ha

/-- In a list with distinct page numbers, two splits at entries of the
same page number coincide. -/
theorem split_unique {x1 x2 : CEntry} :
    ∀ {p1 : List CEntry} {s1 p2 s2 : List CEntry},
      ((p1 ++ x1 :: s1).map CEntry.pgno).Nodup → p1 ++ x1 :: s1 = p2 ++ x2 :: s2 →
      x1.pgno = x2.pgno → p1 = p2 ∧ x1 = x2 ∧ s1 = s2 := by
  intro p1
  induction p1 with
  | nil =>
    intro s1 p2 s2 hnd h2 hx
    cases p2 with
    | nil =>
      simp only [List.nil_append, List.cons.injEq] at h2
      exact ⟨rfl, h2.1, h2.2⟩
    | cons z p2t =>
      exfalso
      simp only [List.nil_append, List.cons_append, List.cons.injEq] at h2
      obtain ⟨hz, hs⟩ := h2
      simp only [List.nil_append, List.map_cons, List.nodup_cons] at hnd
      apply hnd.1
      rw [hx, hs]
      simp
  | cons w p1t ih =>
    intro s1 p2 s2 hnd h2 hx
    cases p2 with
    | nil =>
      exfalso
      simp only [List.nil_append, List.cons_append, List.cons.injEq] at h2
      obtain ⟨hz, hs⟩ := h2
      simp only [List.cons_append, List.map_cons, List.nodup_cons] at hnd
      apply hnd.1
      rw [hz, ← hx]
      simp
    | cons z p2t =>
      simp only [List.cons_append, List.cons.injEq] at h2
      obtain ⟨hz, hs⟩ := h2
      simp only [List.cons_append, List.map_cons, List.nodup_cons] at hnd
      obtain ⟨hpre, hx1, hs1⟩ := ih hnd.2 hs hx
      exact ⟨by rw [hz, hpre], hx1, hs1⟩

/-- The invariant unfolded for a null bookmark. -/
theorem pcInv_none (d : List CEntry) :
    PcInv ⟨d, none⟩ ↔ (d.map CEntry.pgno).Nodup ∧ ∀ x ∈ d, x.needSync = true := Iff.rfl

/-- The invariant unfolded for a set bookmark. -/
theorem pcInv_some (d : List CEntry) (s : Nat) :
    PcInv ⟨d, some s⟩ ↔ (d.map CEntry.pgno).Nodup ∧
      ∃ pre e post, d = pre ++ e :: post ∧ (∀ x ∈ pre, x.pgno ≠ s) ∧ e.pgno = s ∧
        ∀ x ∈ post, x.needSync = true := Iff.rfl

/-- Marking an entry for sync keeps its page number. -/
theorem setSyncIf_pgno (k : Nat) (e : CEntry) : (setSyncIf k e).pgno = e.pgno := by
  unfold setSyncIf
  split_ifs <;> rfl

/-- Marking an entry for sync never clears an existing mark. -/
theorem setSyncIf_keeps (k : Nat) (e : CEntry) (h : e.needSync = true) :
    (setSyncIf k e).needSync = true := by
  unfold setSyncIf
  split_ifs <;> simp [h]

/-- makeDirty preserves the bookmark invariant. -/
theorem pcInv_makeDirty (c : PCacheM) (e : CEntry) (h : PcInv c) : PcInv (pcMakeDirty c e) := by
  obtain ⟨d, ps⟩ := c
  by_cases hmem : hasPg d e.pgno = true
  · have heq : pcMakeDirty ⟨d, ps⟩ e = ⟨d, ps⟩ := by
      unfold pcMakeDirty
      rw [if_pos hmem]
    rw [heq]
    exact h
  · have hnot : e.pgno ∉ d.map CEntry.pgno := by
      intro hc
      apply hmem
      simp only [hasPg, List.any_eq_true, decide_eq_true_eq]
      obtain ⟨x, hx, hpx⟩ := List.mem_map.mp hc
      exact ⟨x, hx, hpx⟩
    cases ps with
    | none =>
      by_cases hns : e.needSync = true
      · have heq : pcMakeDirty ⟨d, none⟩ e = ⟨e :: d, none⟩ := by
          unfold pcMakeDirty
          rw [if_neg hmem]
          show (⟨e :: d, if e.needSync = true then none else some e.pgno⟩ : PCacheM) = _
          rw [if_pos hns]
        rw [heq, pcInv_none]
        rw [pcInv_none] at h
        refine ⟨?_, ?_⟩
        · simp only [List.map_cons, List.nodup_cons]
          exact ⟨hnot, h.1⟩
        · intro x hx
          rcases List.mem_cons.mp hx with h1 | h1
          · rw [h1]; exact hns
          · exact h.2 x h1
      · have heq : pcMakeDirty ⟨d, none⟩ e = ⟨e :: d, some e.pgno⟩ := by
          unfold pcMakeDirty
          rw [if_neg hmem]
          show (⟨e :: d, if e.needSync = true then none else some e.pgno⟩ : PCacheM) = _
          rw [if_neg hns]
        rw [heq, pcInv_some]
        rw [pcInv_none] at h
        refine ⟨?_, [], e, d, rfl, by simp, rfl, h.2⟩
        simp only [List.map_cons, List.nodup_cons]
        exact ⟨hnot, h.1⟩
    | some s =>
      have heq : pcMakeDirty ⟨d, some s⟩ e = ⟨e :: d, some s⟩ := by
        unfold pcMakeDirty
        rw [if_neg hmem]
      rw [heq, pcInv_some]
      rw [pcInv_some] at h
      obtain ⟨hnd, pre, x, post, hsplit, hpre, hx, hpost⟩ := h
      refine ⟨?_, e :: pre, x, post, by rw [hsplit]; rfl, ?_, hx, hpost⟩
      · simp only [List.map_cons, List.nodup_cons]
        exact ⟨hnot, hnd⟩
      · intro z hz
        rcases List.mem_cons.mp hz with h1 | h1
        · rw [h1]
          intro hc
          apply hnot
          rw [hc, ← hx, hsplit]
          simp
        · exact hpre z h1

/-- Journalling a page preserves the bookmark invariant. -/
theorem pcInv_setNeedSync (c : PCacheM) (k : Nat) (h : PcInv c) : PcInv (pcSetNeedSync c k) := by
  obtain ⟨d, ps⟩ := c
  have heq : pcSetNeedSync ⟨d, ps⟩ k = ⟨d.map (setSyncIf k), ps⟩ := rfl
  rw [heq]
  have hmap : ((d.map (setSyncIf k)).map CEntry.pgno) = d.map CEntry.pgno := by
    rw [List.map_map]
    exact List.map_congr_left (fun z _ => setSyncIf_pgno k z)
  cases ps with
  | none =>
    rw [pcInv_none] at h ⊢
    rw [hmap]
    refine ⟨h.1, ?_⟩
    intro z hz
    obtain ⟨w, hw, hwz⟩ := List.mem_map.mp hz
    rw [← hwz]
    exact setSyncIf_keeps k w (h.2 w hw)
  | some s =>
    rw [pcInv_some] at h ⊢
    obtain ⟨hnd, pre, x, post, hsplit, hpre, hx, hpost⟩ := h
    rw [hmap]
    refine ⟨hnd, pre.map (setSyncIf k), setSyncIf k x, post.map (setSyncIf k),
      by rw [hsplit]; simp, ?_, by rw [setSyncIf_pgno k x]; exact hx, ?_⟩
    · intro z hz
      obtain ⟨w, hw, hwz⟩ := List.mem_map.mp hz
      rw [← hwz, setSyncIf_pgno k w]
      exact hpre w hw
    · intro z hz
      obtain ⟨w, hw, hwz⟩ := List.mem_map.mp hz
      rw [← hwz]
      exact setSyncIf_keeps k w (hpost w hw)

/-- Syncing the journal preserves the bookmark invariant. -/
theorem pcInv_clearSyncFlags (c : PCacheM) (h : PcInv c) : PcInv (pcClearSyncFlags c) := by
  obtain ⟨d, ps⟩ := c
  have heq : pcClearSyncFlags ⟨d, ps⟩ =
      ⟨d.map clearSyncEntry, ((d.map clearSyncEntry).getLast?).map CEntry.pgno⟩ := rfl
  rw [heq]
  have hmap : ((d.map clearSyncEntry).map CEntry.pgno) = d.map CEntry.pgno := by
    rw [List.map_map]
    exact List.map_congr_left (fun z _ => rfl)
  have hnd : ((d.map clearSyncEntry).map CEntry.pgno).Nodup := by
    rw [hmap]
    exact h.1
  by_cases hd : d.map clearSyncEntry = []
  · rw [hd]
    rw [show (List.getLast? ([] : List CEntry)).map CEntry.pgno = none from rfl]
    rw [pcInv_none]
    exact ⟨List.nodup_nil, fun x hx => absurd hx (List.not_mem_nil x)⟩
  · rw [List.getLast?_eq_getLast _ hd]
    rw [show (some ((d.map clearSyncEntry).getLast hd)).map CEntry.pgno =
      some ((d.map clearSyncEntry).getLast hd).pgno from rfl]
    rw [pcInv_some]
    refine ⟨hnd, (d.map clearSyncEntry).dropLast, (d.map clearSyncEntry).getLast hd, [],
      (List.dropLast_append_getLast hd).symm, ?_, rfl, fun x hx => absurd hx (List.not_mem_nil x)⟩
    intro z hz hc
    have hsp : (d.map clearSyncEntry).map CEntry.pgno =
        ((d.map clearSyncEntry).dropLast).map CEntry.pgno ++
          [((d.map clearSyncEntry).getLast hd).pgno] := by
      conv_lhs => rw [← List.dropLast_append_getLast hd]
      simp
    rw [hsp] at hnd
    rw [List.nodup_append] at hnd
    exact hnd.2.2 (List.mem_map.mpr ⟨z, hz, rfl⟩) (by simp [hc])

/-- makeClean preserves the bookmark invariant: removing a non-bookmark
entry keeps the old split, and removing the bookmark entry moves the
bookmark to its next newer neighbour, whose strictly older entries are
exactly the old ones minus the removed entry. -/
theorem pcInv_makeClean (c : PCacheM) (k : Nat) (h : PcInv c) : PcInv (pcMakeClean c k) := by
  obtain ⟨d, ps⟩ := c
  cases hdrop : d.dropWhile (pgNe k) with
  | nil =>
    have heq : pcMakeClean ⟨d, ps⟩ k = ⟨d, ps⟩ := by
      unfold pcMakeClean
      rw [hdrop]
    rw [heq]
    exact h
  | cons y post =>
    have hy : y.pgno = k := by
      have := dropWhile_head_false (pgNe k) d y post hdrop
      simpa [pgNe] using this
    have hpre_all : ∀ x ∈ d.takeWhile (pgNe k), x.pgno ≠ k := by
      intro x hx
      have := List.mem_takeWhile_imp hx
      simpa [pgNe] using this
    have hsplit_d : d = d.takeWhile (pgNe k) ++ y :: post := by
      conv_lhs => rw [← List.takeWhile_append_dropWhile (pgNe k) d]
      rw [hdrop]
    have hnodup2 : (((d.takeWhile (pgNe k)) ++ post).map CEntry.pgno).Nodup := by
      have hsub : List.Sublist ((d.takeWhile (pgNe k)) ++ post) d := by
        conv_rhs => rw [hsplit_d]
        exact (List.sublist_cons_self y post).append_left _
      exact h.1.sublist (hsub.map CEntry.pgno)
    cases ps with
    | none =>
      have heq : pcMakeClean ⟨d, none⟩ k = ⟨(d.takeWhile (pgNe k)) ++ post, none⟩ := by
        unfold pcMakeClean
        rw [hdrop]
        dsimp only
        rw [if_neg (by simp)]
      rw [heq, pcInv_none]
      rw [pcInv_none] at h
      refine ⟨hnodup2, ?_⟩
      intro x hx
      apply h.2
      rw [hsplit_d]
      rcases List.mem_append.mp hx with h1 | h1
      · simp [h1]
      · simp [h1]
    | some s =>
      have hnd := h.1
      rw [pcInv_some] at h
      obtain ⟨-, pre0, x, post0, hsplit0, hpre0, hx, hpost0⟩ := h
      have hnd0 : ((pre0 ++ x :: post0).map CEntry.pgno).Nodup := by
        rw [← hsplit0]
        exact hnd
      by_cases hsk : s = k
      · have heq : pcMakeClean ⟨d, some s⟩ k =
            ⟨(d.takeWhile (pgNe k)) ++ post,
              ((d.takeWhile (pgNe k)).getLast?).map CEntry.pgno⟩ := by
          unfold pcMakeClean
          rw [hdrop]
          dsimp only
          rw [if_pos (by rw [hsk])]
        rw [heq]
        have hxy : x.pgno = y.pgno := by
          rw [hx, hy, hsk]
        obtain ⟨hpp, -, hss⟩ := split_unique hnd0 (hsplit0.symm.trans hsplit_d) hxy
        -- pre0 is the takeWhile prefix, post0 = post
        by_cases hpre_nil : d.takeWhile (pgNe k) = []
        · rw [hpre_nil]
          rw [show (List.getLast? ([] : List CEntry)).map CEntry.pgno = none from rfl]
          rw [pcInv_none]
          refine ⟨by simpa [hpre_nil] using hnodup2, ?_⟩
          intro z hz
          apply hpost0
          rw [hss]
          simpa [hpre_nil] using hz
        · rw [List.getLast?_eq_getLast _ hpre_nil]
          rw [show (some ((d.takeWhile (pgNe k)).getLast hpre_nil)).map CEntry.pgno =
            some (((d.takeWhile (pgNe k)).getLast hpre_nil).pgno) from rfl]
          rw [pcInv_some]
          refine ⟨hnodup2, (d.takeWhile (pgNe k)).dropLast,
            (d.takeWhile (pgNe k)).getLast hpre_nil, post, ?_, ?_, rfl, ?_⟩
          · conv_lhs => rw [← List.dropLast_append_getLast hpre_nil]
            simp
          · intro z hz hc
            have hsp : ((d.takeWhile (pgNe k)).map CEntry.pgno) =
                ((d.takeWhile (pgNe k)).dropLast).map CEntry.pgno ++
                  [((d.takeWhile (pgNe k)).getLast hpre_nil).pgno] := by
              conv_lhs => rw [← List.dropLast_append_getLast hpre_nil]
              simp
            have hndpre : ((d.takeWhile (pgNe k)).map CEntry.pgno).Nodup := by
              have hsub2 : List.Sublist (d.takeWhile (pgNe k)) d := List.takeWhile_sublist _
              exact hnd.sublist (hsub2.map CEntry.pgno)
            rw [hsp, List.nodup_append] at hndpre
            exact hndpre.2.2 (List.mem_map.mpr ⟨z, hz, rfl⟩) (by simp [hc])
          · intro z hz
            apply hpost0
            rw [hss]
            exact hz
      · have heq : pcMakeClean ⟨d, some s⟩ k =
            ⟨(d.takeWhile (pgNe k)) ++ post, some s⟩ := by
          unfold pcMakeClean
          rw [hdrop]
          dsimp only
          rw [if_neg (by simp [hsk])]
        rw [heq, pcInv_some]
        have hxy : x ≠ y := by
          intro hcon
          apply hsk
          rw [← hx, hcon, hy]
        have hxd : x ∈ d := by
          rw [hsplit0]
          simp
        have hxloc : x ∈ d.takeWhile (pgNe k) ∨ x ∈ post := by
          rw [hsplit_d] at hxd
          rcases List.mem_append.mp hxd with h1 | h1
          · exact Or.inl h1
          · rcases List.mem_cons.mp h1 with h1 | h1
            · exact absurd h1 hxy
            · exact Or.inr h1
        rcases hxloc with hxpre | hxpost
        · obtain ⟨a, b, hab⟩ := List.append_of_mem hxpre
          have hd2 : d = a ++ x :: (b ++ y :: post) := by
            rw [hsplit_d, hab]
            simp
          obtain ⟨hpp, -, hss⟩ := split_unique hnd0 (hsplit0.symm.trans hd2) rfl
          refine ⟨hnodup2, a, x, b ++ post, ?_, ?_, hx, ?_⟩
          · rw [hab]
            simp
          · intro z hz
            apply hpre0
            rw [hpp]
            exact hz
          · intro z hz
            apply hpost0
            rw [hss]
            rcases List.mem_append.mp hz with h1 | h1
            · simp [h1]
            · simp [h1]
        · obtain ⟨a, b, hab⟩ := List.append_of_mem hxpost
          have hd2 : d = (d.takeWhile (pgNe k) ++ y :: a) ++ x :: b := by
            conv_lhs => rw [hsplit_d]
            rw [hab]
            simp
          obtain ⟨hpp, -, hss⟩ := split_unique hnd0 (hsplit0.symm.trans hd2) rfl
          refine ⟨hnodup2, d.takeWhile (pgNe k) ++ a, x, b, ?_, ?_, hx, ?_⟩
          · rw [hab]
            simp
          · intro z hz
            apply hpre0
            rw [hpp]
            rcases List.mem_append.mp hz with h1 | h1
            · simp [h1]
            · simp [h1]
          · intro z hz
            apply hpost0
            rw [hss]
            exact hz

/-- Every reachable page-cache state satisfies the bookmark invariant. -/
theorem pcReach_inv (c : PCacheM) (h : PcReach c) : PcInv c := by
  induction h with
  | init => exact ⟨List.nodup_nil, fun x hx => absurd hx (List.not_mem_nil x)⟩
  | dirty c e hr ih => exact pcInv_makeDirty c e ih
  | clean c k hr ih => exact pcInv_makeClean c k ih
  | setSync c k hr ih => exact pcInv_setNeedSync c k ih
  | clearSync c hr ih => exact pcInv_clearSyncFlags c ih

/-- C6: in every reachable page-cache state whose pSynced bookmark is
set, the bookmark rests on a dirty entry such that every strictly older
entry (toward pDirtyTail) has NEED_SYNC set: the bookmark is always a
valid witness for the oldest-page-not-needing-sync search, with no
transient lag visible to consumers. -/
theorem pSynced_always_valid (c : PCacheM) (s : Nat) (hr : PcReach c)
    (hs : c.pSynced = some s) :
    ∃ pre e post, c.dirty = pre ++ e :: post ∧ e.pgno = s ∧
      ∀ x ∈ post, x.needSync = true := by
  have h := pcReach_inv c hr
  obtain ⟨d, ps⟩ := c
  dsimp only at hs
  subst hs
  rw [pcInv_some] at h
  obtain ⟨-, pre, e, post, hsplit, -, hx, hpost⟩ := h
  exact ⟨pre, e, post, hsplit, hx, hpost⟩

/-- C6 witness: the state reached by making page 1 dirty (no sync
needed) has pSynced on page 1 and an empty older segment. -/
theorem pSynced_always_valid_witness :
    (pcMakeDirty ⟨[], none⟩ ⟨1, false⟩).pSynced = some 1 ∧
      ∃ pre e post, (pcMakeDirty ⟨[], none⟩ ⟨1, false⟩).dirty = pre ++ e :: post ∧
        e.pgno = 1 ∧ ∀ x ∈ post, x.needSync = true :=
  ⟨by decide, pSynced_always_valid _ 1 (PcReach.dirty _ _ PcReach.init) (by decide)⟩
